import Mathlib

/-!
# Lotus operator-kernel execution framework: type-erased values, shapes, kernel context

A shallow embedding of
* `lotus/core/framework/ml_value.h` (`MLValue`),
* `include/lotus/core/framework/tensor_shape.h` (`TensorShape`),
* `include/lotus/core/framework/op_kernel.h` (`OpKernel`, `OpKernelContext`),
* `onnxruntime/core/providers/cuda/tensor/image_scaler.cc` (`ImageScaler::ComputeInternal`),
* the `TopK` operator that `lotus/test/providers/cpu/math/topk_op_test.cc` exercises,
followed by the properties proved about them.

Conventions of the embedding.
* A C++ pointer is an `Option` of an address; `none` is `nullptr`.
* A fatal exception thrown by `LOTUS_ENFORCE` / `LOTUS_NOT_IMPLEMENTED` is the `error` case of
  `Except Failure`; a normal return is the `ok` case.
* The reference returned by `MLValue::Get<T>()` is represented by the address it refers to, which
  is how `OpKernelContext::Input<T>` consumes it (it takes the address of the returned reference).
-/

namespace Lotus

/-! ## Pointers, type identities, failures -/

/-- Addresses of objects in memory. -/
abbrev Addr := Nat

/-- A raw pointer such as `void*` or `T*`; `none` is `nullptr`. -/
abbrev Ptr := Option Addr

/-- A deleter `DeleteFunc` (a function pointer), identified by a number. -/
abbrev DeleteFunc := Nat

/-- The C++ types a value can be read as (the template argument `T`). `Tensor` is singled out
because `op_kernel.h` specialises `Output<Tensor>`. -/
inductive TypeId where
  | Tensor : TypeId
  | other (n : Nat) : TypeId
  deriving DecidableEq, Repr

/-- The type `MLDataType`, a `const DataTypeImpl*`; `none` is `nullptr`. -/
abbrev MLDataType := Option TypeId

/-- Modelled from the spec: `DataTypeImpl::GetType<T>()` is declared in
`core/framework/data_types.h`, which is not among the sources. It yields the type identity token
of `T`, one (non-null) token per type. -/
def DataTypeImpl.GetType (T : TypeId) : MLDataType := some T

/-- The condition whose failure made `LOTUS_ENFORCE` throw. -/
inductive Enforced where
  /-- The check `DataTypeImpl::GetType<T>() == type_` of `MLValue::Get` / `GetMutable`, with the two
  types it prints. -/
  | typeMatches (requested stored : MLDataType) : Enforced
  /-- The check `GetOrCreateOutputMLValue(index, p_ml_value).IsOK()` of `Output<T>`. -/
  | statusIsOK : Enforced
  /-- The check `false` of `Output<Tensor>`: "Please fetch output tensor with specified shape." -/
  | shapelessTensorOutput : Enforced
  /-- The requirement `0 <= d <= rank` of `SizeToDimension` / `SizeFromDimension`. -/
  | dimensionInRange : Enforced
  deriving DecidableEq, Repr

/-- Fatal outcomes: the exceptions thrown by the contract macros. -/
inductive Failure where
  | LotusException (what : Enforced) : Failure
  | NotImplementedException : Failure
  deriving DecidableEq, Repr

/-- Modelled from the spec: the macro `LOTUS_ENFORCE(condition, ...)` is defined in
`core/common/common.h`, which is not among the sources. A false condition is a contract violation
surfaced as a fatal assertion (an exception), not a status. -/
def LOTUS_ENFORCE (condition : Bool) (what : Enforced) : Except Failure Unit :=
  if condition then Except.ok () else Except.error (Failure.LotusException what)

/-- Modelled from the spec: the macro `LOTUS_NOT_IMPLEMENTED(...)` is defined in
`core/common/common.h`, which is not among the sources. It signals "not implemented" as a fatal
capability error. -/
def LOTUS_NOT_IMPLEMENTED {α : Type} : Except Failure α :=
  Except.error Failure.NotImplementedException

/-! ## `std::shared_ptr<void>` -/

/-- The observable part of a `std::shared_ptr<void>`: the stored pointer and, when it owns a
control block, the deleter registered with it. -/
structure SharedPtr where
  ptr : Ptr
  deleter : Option DeleteFunc
  deriving DecidableEq, Repr

/-- The call `shared_ptr(nullptr)`. -/
def SharedPtr.null : SharedPtr := { ptr := none, deleter := none }

/-- The call `reset(p, d)`: drops the previous ownership and owns `p` with deleter `d`. -/
def SharedPtr.reset (_old : SharedPtr) (p : Ptr) (d : DeleteFunc) : SharedPtr :=
  { ptr := p, deleter := some d }

/-- The call `get()`. -/
def SharedPtr.get (s : SharedPtr) : Ptr := s.ptr

/-- The conversion `explicit operator bool`: `get() != nullptr`. -/
def SharedPtr.toBool (s : SharedPtr) : Bool := s.get.isSome

/-! ## `MLValue` (ml_value.h) -/

/-- The class `MLValue`: members `data_` and `type_`. -/
structure MLValue where
  data_ : SharedPtr
  type_ : MLDataType
  deriving DecidableEq, Repr

/-- The constructor `MLValue() : data_(nullptr), type_(nullptr)`. -/
def MLValue.ctor : MLValue := { data_ := SharedPtr.null, type_ := none }

/-- The method `MLValue::Init`: `data_.reset(pData, deleter); type_ = type;`. -/
def MLValue.Init (v : MLValue) (pData : Ptr) (type : MLDataType) (deleter : DeleteFunc) :
    MLValue :=
  { data_ := v.data_.reset pData deleter, type_ := type }

/-- The method `MLValue::IsAllocated`: `return data_ && type_;`. -/
def MLValue.IsAllocated (v : MLValue) : Bool := v.data_.toBool && v.type_.isSome

/-- The method `MLValue::Get<T>`: enforce `GetType<T>() == type_`, then return the payload
`*static_cast<T*>(data_.get())` (represented by its address). -/
def MLValue.Get (v : MLValue) (T : TypeId) : Except Failure Ptr := do
  LOTUS_ENFORCE (DataTypeImpl.GetType T == v.type_)
    (Enforced.typeMatches (DataTypeImpl.GetType T) v.type_)
  return v.data_.get

/-- The method `MLValue::GetMutable<T>`: enforce `GetType<T>() == type_`, then return
`static_cast<T*>(data_.get())`. -/
def MLValue.GetMutable (v : MLValue) (T : TypeId) : Except Failure Ptr := do
  LOTUS_ENFORCE (DataTypeImpl.GetType T == v.type_)
    (Enforced.typeMatches (DataTypeImpl.GetType T) v.type_)
  return v.data_.get

/-- The method `MLValue::IsTensor`: `return DataTypeImpl::GetType<Tensor>() == type_;`. -/
def MLValue.IsTensor (v : MLValue) : Bool := DataTypeImpl.GetType TypeId.Tensor == v.type_

/-- The arguments of one call `Init(pData, type, deleter)`. -/
structure InitCall where
  pData : Ptr
  type : MLDataType
  deleter : DeleteFunc
  deriving DecidableEq, Repr

/-- Runs a sequence of `Init` calls, first to last, on a value. -/
def MLValue.InitAll (v : MLValue) (calls : List InitCall) : MLValue :=
  calls.foldl (fun w c => w.Init c.pData c.type c.deleter) v

/-- No data and no type. -/
def MLValue.isEmpty (v : MLValue) : Prop := v.data_.get = none ∧ v.type_ = none

/-- Data and type both set. -/
def MLValue.isFull (v : MLValue) : Prop := v.data_.get ≠ none ∧ v.type_ ≠ none

instance (v : MLValue) : Decidable v.isEmpty := by unfold MLValue.isEmpty; infer_instance

instance (v : MLValue) : Decidable v.isFull := by unfold MLValue.isFull; infer_instance

/-! ## `TensorShape` (tensor_shape.h) -/

/-- The class `TensorShape`, a privately inherited `std::vector<int64_t>`: the ordered dimension
sizes. A negative entry is a symbolic dimension. -/
structure TensorShape where
  dims : List Int
  deriving DecidableEq, Repr

/-- The inherited `std::vector::size()`. -/
def TensorShape.size (s : TensorShape) : Nat := s.dims.length

/-- The inherited `std::vector::at(idx)`; `none` when it throws `std::out_of_range`. -/
def TensorShape.at (s : TensorShape) (idx : Nat) : Option Int := s.dims.get? idx

/-- The method `TensorShape::NumDimensions`: `return size();`. -/
def TensorShape.NumDimensions (s : TensorShape) : Nat := s.size

/-- The method `TensorShape::GetDims`: `return *this;`. -/
def TensorShape.GetDims (s : TensorShape) : List Int := s.dims

/-- The algorithm `std::equal(first1, last1, first2)`: walks the first range and compares each
element with the element at the same position of the second. -/
def std_equal : List Int → List Int → Bool
  | [], _ => true
  | _ :: _, [] => false
  | x :: xs, y :: ys => x == y && std_equal xs ys

/-- The comparison `operator==` of `std::vector<int64_t>`: equal sizes and `std::equal`. -/
def vector_operator_eq (a b : List Int) : Bool :=
  a.length == b.length && std_equal a b

/-- The method `TensorShape::operator==`: compares the two underlying vectors. -/
def TensorShape.operator_eq (self other : TensorShape) : Bool :=
  vector_operator_eq self.dims other.dims

/-- The method `TensorShape::operator!=`: `return !(*this == other);`. -/
def TensorShape.operator_ne (self other : TensorShape) : Bool :=
  !(self.operator_eq other)

/-- The method `TensorShape::IsScalar`: `return size() == 0 || (size() == 1 && at(0) == 1);`. -/
def TensorShape.IsScalar (s : TensorShape) : Bool :=
  s.size == 0 || (s.size == 1 && s.at 0 == some 1)

/-- Modelled from the spec: `TensorShape::SizeHelper(start, end)` is declared in `tensor_shape.h`
and defined in `tensor_shape.cc`, which is not among the sources. It is the product of the entries
at positions `[start, end)`, accumulated from 1 position by position. -/
def TensorShape.SizeHelper (s : TensorShape) (start stop : Nat) : Int :=
  ((s.dims.drop start).take (stop - start)).foldl (fun size d => size * d) 1

/-- Modelled from the spec: `TensorShape::Size()` is defined in `tensor_shape.cc`, which is not
among the sources. The total element count: the product of all entries, 1 for an empty shape. -/
def TensorShape.Size (s : TensorShape) : Int := s.SizeHelper 0 s.size

/-- Modelled from the spec: `TensorShape::SizeToDimension(d)` is defined in `tensor_shape.cc`,
which is not among the sources. The product of dims `[0, d)`; it requires `0 <= d <= rank`, and
violating this is a contract failure. -/
def TensorShape.SizeToDimension (s : TensorShape) (dimension : Nat) : Except Failure Int :=
  if dimension ≤ s.size then Except.ok (s.SizeHelper 0 dimension)
  else Except.error (Failure.LotusException Enforced.dimensionInRange)

/-- Modelled from the spec: `TensorShape::SizeFromDimension(d)` is defined in `tensor_shape.cc`,
which is not among the sources. The product of dims `[d, end)`; it requires `0 <= d <= rank`, and
violating this is a contract failure. -/
def TensorShape.SizeFromDimension (s : TensorShape) (dimension : Nat) : Except Failure Int :=
  if dimension ≤ s.size then Except.ok (s.SizeHelper dimension s.size)
  else Except.error (Failure.LotusException Enforced.dimensionInRange)

/-- Modelled from the spec: `TensorShape::Slice(dimstart, dimend)` is defined in
`tensor_shape.cc`, which is not among the sources. A new shape over the half-open sub-range
`[dimstart, dimend)` of the dimensions. -/
def TensorShape.Slice (s : TensorShape) (dimstart dimend : Nat) : TensorShape :=
  { dims := (s.dims.drop dimstart).take (dimend - dimstart) }

/-- Modelled from the spec: `TensorShape::Slice(dimstart)` is defined in `tensor_shape.cc`, which
is not among the sources. The dimensions from `dimstart` to the end. -/
def TensorShape.SliceFrom (s : TensorShape) (dimstart : Nat) : TensorShape :=
  s.Slice dimstart s.size

/-! ## `OpKernel` and `OpKernelContext` (op_kernel.h) -/

/-- Modelled from the spec: the class `Common::Status` is declared in `core/common/status.h`,
which is not among the sources. A recoverable status: OK, or an error with its code. -/
inductive Status where
  | OK : Status
  | error (code : Nat) : Status
  deriving DecidableEq, Repr

/-- The method `Status::IsOK`. -/
def Status.IsOK : Status → Bool
  | Status.OK => true
  | Status.error _ => false

/-- The conversion `static_cast<int>` of a `size_t`: wraps into the signed 32-bit range. -/
def static_cast_int (n : Nat) : Int := Int.bmod n (2 ^ 32)

/-- The class `OpKernelContext`, over the state `σ` of the execution frame it points to. The
graph node supplies the lengths of its input and output definition lists; `GetInputMLValue` and
`GetOrCreateOutputMLValue` are declared in `op_kernel.h` and defined in `op_kernel.cc`, which is
not among the sources, so the context carries them as given, with their declared signatures:
`GetInputMLValue` reads the frame and returns an `MLValue*` (`none` is null, otherwise the value
pointed to), `GetOrCreateOutputMLValue` returns its status, the `MLValue*` it leaves in its
out-parameter (initially null), and the frame after the call. -/
structure OpKernelContext (σ : Type) where
  InputDefs_size : Nat
  OutputDefs_size : Nat
  GetInputMLValue : σ → Int → Option MLValue
  GetOrCreateOutputMLValue : σ → Int → Status × Option MLValue × σ

/-- The method `OpKernelContext::InputCount`. -/
def OpKernelContext.InputCount {σ : Type} (ctx : OpKernelContext σ) : Int :=
  static_cast_int ctx.InputDefs_size

/-- The method `OpKernelContext::OutputCount`. -/
def OpKernelContext.OutputCount {σ : Type} (ctx : OpKernelContext σ) : Int :=
  static_cast_int ctx.OutputDefs_size

/-- The method `OpKernelContext::Input<T>`:
`p_ml_value = GetInputMLValue(index); return p_ml_value ? &(p_ml_value->Get<T>()) : nullptr;`. -/
def OpKernelContext.Input {σ : Type} (ctx : OpKernelContext σ) (T : TypeId) (frame : σ)
    (index : Int) : Except Failure Ptr :=
  match ctx.GetInputMLValue frame index with
  | some p_ml_value => p_ml_value.Get T
  | none => Except.ok none

/-- The primary template `OpKernelContext::Output<T>` ("fetch output (non-tensor)"): the result
and the frame afterwards. -/
def OpKernelContext.Output_primary {σ : Type} (ctx : OpKernelContext σ) (T : TypeId) (frame : σ)
    (index : Int) : Except Failure Ptr × σ :=
  if index < 0 || index ≥ ctx.OutputCount then
    (Except.ok none, frame)
  else
    match ctx.GetOrCreateOutputMLValue frame index with
    | (status, p_ml_value, frame') =>
      match LOTUS_ENFORCE status.IsOK Enforced.statusIsOK with
      | Except.error e => (Except.error e, frame')
      | Except.ok () =>
        match p_ml_value with
        | some v => (v.GetMutable T, frame')
        | none => (Except.ok none, frame')

/-- The specialisation `OpKernelContext::Output<Tensor>(int)`:
`LOTUS_ENFORCE(false, "Please fetch output tensor with specified shape."); return nullptr;`. -/
def OpKernelContext.Output_Tensor {σ : Type} (_ctx : OpKernelContext σ) (frame : σ)
    (_index : Int) : Except Failure Ptr × σ :=
  match LOTUS_ENFORCE false Enforced.shapelessTensorOutput with
  | Except.error e => (Except.error e, frame)
  | Except.ok () => (Except.ok none, frame)

/-- The call `Output<T>(index)` as the compiler resolves it: the explicit specialisation for
`Tensor`, the primary template for every other type. -/
def OpKernelContext.Output {σ : Type} (ctx : OpKernelContext σ) (T : TypeId) (frame : σ)
    (index : Int) : Except Failure Ptr × σ :=
  if T = TypeId.Tensor then ctx.Output_Tensor frame index else ctx.Output_primary T frame index

/-- The type `OpKernel::DoneCallback`, a `std::function<void()>`: what running it does to the
state of the world. -/
abbrev DoneCallback (σ : Type) := σ → σ

/-- The signature of `ComputeAsync`: from the context, the callback and the current state to the
returned status (or the exception thrown) and the state afterwards. -/
abbrev ComputeAsyncFn (σ : Type) :=
  OpKernelContext σ → DoneCallback σ → σ → Except Failure Status × σ

/-- The class `OpKernel`: the pure virtual `Compute` every kernel defines, and the override of
the virtual `ComputeAsync` when the kernel has one. -/
structure OpKernel (σ : Type) where
  Compute : OpKernelContext σ → σ → Except Failure Status × σ
  ComputeAsync_override : Option (ComputeAsyncFn σ)

/-- The base implementation `OpKernel::ComputeAsync`:
`LOTUS_NOT_IMPLEMENTED(__FUNCTION__, " is not implemented");`. -/
def OpKernel.ComputeAsync_base {σ : Type} : ComputeAsyncFn σ :=
  fun _context _done state => (LOTUS_NOT_IMPLEMENTED, state)

/-- The virtual call `kernel->ComputeAsync(context, done)`: the override when there is one, the
base implementation otherwise. -/
def OpKernel.ComputeAsync {σ : Type} (k : OpKernel σ) : ComputeAsyncFn σ :=
  match k.ComputeAsync_override with
  | some f => f
  | none => OpKernel.ComputeAsync_base

/-! ## `Tensor`, and the CUDA `ImageScaler` kernel (image_scaler.cc) -/

/-- Modelled from the spec: the class `Tensor` is declared in `core/framework/tensor.h`, which is
not among the sources. A dense, shaped array: its shape and the elements of its buffer in
row-major order. -/
structure Tensor (α : Type) where
  shape : TensorShape
  data : List α

/-- The method `Tensor::Shape`. -/
def Tensor.Shape {α : Type} (t : Tensor α) : TensorShape := t.shape

/-- Row `i` of a tensor whose last axis has extent `width`: the elements at positions
`[i * width, (i + 1) * width)` of the row-major buffer. -/
def Tensor.row {α : Type} (t : Tensor α) (width i : Nat) : List α :=
  (t.data.drop (i * width)).take width

/-- Modelled from the spec: the status code `INVALID_ARGUMENT` is declared in
`core/common/status.h`, which is not among the sources; a code of the recoverable class,
identified by a number. -/
def StatusCode.INVALID_ARGUMENT : Nat := 2

/-- Modelled from the spec: the macro `LOTUS_MAKE_STATUS(category, code, ...)` is defined in
`core/common/common.h`, which is not among the sources. It builds the recoverable status with
the given code; the message is not kept. -/
def LOTUS_MAKE_STATUS (code : Nat) : Status := Status.error code

/-- The conversion `static_cast<size_t>` of an `int64_t`: the value modulo `2 ^ 64`. -/
def static_cast_size_t (c : Int) : Nat := (c % 2 ^ 64).toNat

/-- The class `ImageScaler<T>` as `image_scaler.cc` uses it: the attribute `scale_`, the
attribute `bias_` (a `std::vector<float>`), and `b_data_`, the device copy of the bias. `F` is
the type of `float` values, which the kernel only passes on. -/
structure ImageScaler (F : Type) where
  scale_ : F
  bias_ : List F
  b_data_ : Ptr

/-- What `ComputeInternal` calls and `image_scaler.cc` does not define. `context` is the kernel
context; `tensorAt` is the `Tensor` object a non-null `Tensor*` points to in a frame;
`Output_shaped` is `OpKernelContext::Output(int index, const TensorShape& shape)`, declared in
`op_kernel.h` and defined in `op_kernel.cc`, returning the `Tensor*` (or the exception thrown)
and the frame after the request; `ImageScalerImpl` is the device routine of
`image_scaler_impl.h`, acting on the frame. -/
structure CudaKernelEnv (σ F : Type) where
  context : OpKernelContext σ
  tensorAt : σ → Addr → Option (Tensor F)
  Output_shaped : σ → Int → TensorShape → Except Failure Ptr × σ
  ImageScalerImpl : List F → F → Ptr → List Int → Addr → Int → σ → σ

/-- The method `ImageScaler<T>::ComputeInternal`. The result is `none` when the code goes
through a null or dangling `Tensor*` (`X->Shape()`, `Y->MutableData<T>()`), which has no defined
behaviour; otherwise the returned status (or the exception thrown) and the frame afterwards. -/
def ImageScaler.ComputeInternal {σ F : Type} (self : ImageScaler F) (env : CudaKernelEnv σ F)
    (frame : σ) : Option (Except Failure Status × σ) :=
  match env.context.Input TypeId.Tensor frame 0 with
  | Except.error e => some (Except.error e, frame)
  | Except.ok none => none
  | Except.ok (some x) =>
    match env.tensorAt frame x with
    | none => none
    | some X =>
      let dims := X.Shape.GetDims
      if dims.length ≠ 4 then
        some (Except.ok (LOTUS_MAKE_STATUS StatusCode.INVALID_ARGUMENT), frame)
      else
        let C := dims.getD 1 0
        if !self.bias_.isEmpty && self.bias_.length != static_cast_size_t C then
          some (Except.ok (LOTUS_MAKE_STATUS StatusCode.INVALID_ARGUMENT), frame)
        else
          match env.Output_shaped frame 0 X.Shape with
          | (Except.error e, frame') => some (Except.error e, frame')
          | (Except.ok none, _) => none
          | (Except.ok (some y), frame') =>
            some (Except.ok Status.OK,
              env.ImageScalerImpl X.data self.scale_ self.b_data_ dims y X.Shape.Size frame')

/-! ## The `TopK` operator (exercised by topk_op_test.cc) -/

/-- The order in which `TopK` lists the entries `(position, value)` of a row: larger values
first, and among equal values the lower position first. -/
def TopK.before {α : Type} [LinearOrder α] (a b : Nat × α) : Prop :=
  b.2 < a.2 ∨ (a.2 = b.2 ∧ a.1 ≤ b.1)

instance {α : Type} [LinearOrder α] : DecidableRel (TopK.before : Nat × α → Nat × α → Prop) :=
  fun a b => by unfold TopK.before; infer_instance

/-- The `k` entries `(position, value)` that `TopK` selects from one row, in output order. -/
def TopK.selectRow {α : Type} [LinearOrder α] (k : Nat) (row : List α) : List (Nat × α) :=
  (row.enum.insertionSort TopK.before).take k

/-- Modelled from the spec: the `TopK` kernel is not among the sources, only its test
`topk_op_test.cc` is. For an input of shape `{n, m}` and `k` over the last axis it yields a
values tensor and an indices tensor of shape `{n, k}`: per row the `k` largest entries, largest
first, ties broken by lowest index, and their positions in the row. A `k` below 1 fails with a
recoverable status. An input that is not of rank 2 and a `k` above `m` are outside what the spec
describes; they are rejected with a status as well. `α` is the type of the `float` values, of
which only the order is used. -/
def TopK.Compute {α : Type} [LinearOrder α] (k : Int) (X : Tensor α) :
    Except Status (Tensor α × Tensor Int) :=
  match X.shape.dims with
  | [n, m] =>
    if k < 1 then Except.error (LOTUS_MAKE_STATUS StatusCode.INVALID_ARGUMENT)
    else if m < k then Except.error (LOTUS_MAKE_STATUS StatusCode.INVALID_ARGUMENT)
    else
      let rows := (List.range n.toNat).map
        (fun i => TopK.selectRow k.toNat (X.row m.toNat i))
      Except.ok
        ({ shape := TensorShape.mk [n, k],
           data := (rows.map (fun sel => sel.map Prod.snd)).flatten },
         { shape := TensorShape.mk [n, k],
           data := (rows.map (fun sel => sel.map (fun e => (e.1 : Int)))).flatten })
  | _ => Except.error (LOTUS_MAKE_STATUS StatusCode.INVALID_ARGUMENT)

/-- What the claim asks of one output row: `vals` and `idxs` list `k` entries of `row`, each
index being a position of `row` that holds the matching value, no position twice; the values
descend, equal values come lowest index first; and every entry of `row` left out is smaller than
each entry listed, or equal to it at a higher position. -/
def TopK.IsTopKOfRow {α : Type} [LinearOrder α] (k : Nat) (row vals : List α)
    (idxs : List Int) : Prop :=
  ∃ sel : List (Nat × α),
    vals = sel.map Prod.snd ∧ idxs = sel.map (fun e => (e.1 : Int)) ∧ sel.length = k ∧
    (∀ e ∈ sel, row[e.1]? = some e.2) ∧
    (sel.map Prod.fst).Nodup ∧
    sel.Pairwise (fun a b => b.2 < a.2 ∨ (a.2 = b.2 ∧ a.1 < b.1)) ∧
    (∀ p v, row[p]? = some v → p ∉ sel.map Prod.fst →
      ∀ e ∈ sel, v < e.2 ∨ (v = e.2 ∧ e.1 < p))

/-! ## A concrete context and kernel, used to instantiate the statements below -/

/-- A two-input, two-output context over a frame that counts the get-or-create calls it has
served. Input 0 holds a value of type `other 1` with payload at address 16, input 1 a value of
type `other 1` whose payload pointer is null, and no other input is supplied. Output 0 yields a
value of type `other 1` with payload at address 32, every other output yields no value. -/
def exampleContext : OpKernelContext Nat where
  InputDefs_size := 2
  OutputDefs_size := 2
  GetInputMLValue := fun _ index =>
    if index = 0 then some (MLValue.ctor.Init (some 16) (some (TypeId.other 1)) 0)
    else if index = 1 then some (MLValue.ctor.Init none (some (TypeId.other 1)) 0)
    else none
  GetOrCreateOutputMLValue := fun served index =>
    (Status.OK,
     if index = 0 then some (MLValue.ctor.Init (some 32) (some (TypeId.other 1)) 0) else none,
     served + 1)

/-- A kernel that defines `Compute` and does not override `ComputeAsync`. -/
def exampleKernel : OpKernel Nat where
  Compute := fun _ state => (Except.ok Status.OK, state)
  ComputeAsync_override := none

/-- An environment over a frame that logs the shaped output requests it has served. Input 0 is
a `Tensor` at address 16, of shape `{1, 3, 2, 2}`; every shaped output request is logged and
answered with the tensor at address 64; the device routine leaves the log alone. -/
def exampleScalerEnv : CudaKernelEnv (List (Int × TensorShape)) ℚ where
  context :=
    { InputDefs_size := 1
      OutputDefs_size := 1
      GetInputMLValue := fun _ index =>
        if index = 0 then some (MLValue.ctor.Init (some 16) (some TypeId.Tensor) 0) else none
      GetOrCreateOutputMLValue := fun log _ => (Status.OK, none, log) }
  tensorAt := fun _ a =>
    if a = 16 then some { shape := TensorShape.mk [1, 3, 2, 2], data := List.replicate 12 0 }
    else none
  Output_shaped := fun log index shape => (Except.ok (some 64), log ++ [(index, shape)])
  ImageScalerImpl := fun _ _ _ _ _ _ log => log

/-- An `ImageScaler` kernel with three bias values. -/
def exampleScaler : ImageScaler ℚ where
  scale_ := 2
  bias_ := [1, 2, 3]
  b_data_ := some 128

/-- The environment `exampleScalerEnv` with a frame that cannot provide the output: every
shaped output request is logged and ends in the fatal failure of `Output(index, shape)`. -/
def exampleFailingScalerEnv : CudaKernelEnv (List (Int × TensorShape)) ℚ where
  context := exampleScalerEnv.context
  tensorAt := exampleScalerEnv.tensorAt
  Output_shaped := fun log index shape =>
    (Except.error (Failure.LotusException Enforced.statusIsOK), log ++ [(index, shape)])
  ImageScalerImpl := exampleScalerEnv.ImageScalerImpl

/-- The input of the tests `Top1` and `TopAll` of `topk_op_test.cc`: shape `{2, 4}`. -/
def topkTestInput : Tensor ℚ where
  shape := TensorShape.mk [2, 4]
  data := [0.1, 0.3, 0.2, 0.4, 0.1, 0.3, 0.3, 0.2]

/-- The input of the tests `Top2` and `Top3` of `topk_op_test.cc`: shape `{2, 4}`. -/
def topkTestInput2 : Tensor ℚ where
  shape := TensorShape.mk [2, 4]
  data := [0.1, 0.3, 0.2, 0.4, 0.1, 0.3, 0.4, 0.2]

/-- The two tensors of a `TopK` result as plain data: dimensions and elements of the values,
dimensions and elements of the indices. -/
def TopK.observe (r : Except Status (Tensor ℚ × Tensor Int)) :
    Option (List Int × List ℚ × List Int × List Int) :=
  match r with
  | Except.ok (V, I) => some (V.shape.dims, V.data, I.shape.dims, I.data)
  | Except.error _ => none

/-! ## Properties of `MLValue` -/

/-- A typed read depends only on the two members; this is the read after any `Init`. -/
theorem MLValue.Get_Init (v : MLValue) (c : InitCall) (T : TypeId) :
    (v.Init c.pData c.type c.deleter).Get T =
      if DataTypeImpl.GetType T = c.type then Except.ok c.pData
      else Except.error (Failure.LotusException
        (Enforced.typeMatches (DataTypeImpl.GetType T) c.type)) := by
  unfold MLValue.Get MLValue.Init LOTUS_ENFORCE SharedPtr.reset SharedPtr.get
  by_cases h : DataTypeImpl.GetType T = c.type
  · simp [h]
  · simp [h]

theorem MLValue.GetMutable_eq_Get (v : MLValue) (T : TypeId) : v.GetMutable T = v.Get T := rfl

theorem MLValue.InitAll_append_last (v : MLValue) (calls : List InitCall) (last : InitCall) :
    v.InitAll (calls ++ [last]) = (v.InitAll calls).Init last.pData last.type last.deleter := by
  simp [MLValue.InitAll, List.foldl_append]

/-- The state after a non-empty sequence of `Init` calls holds the last call's arguments. -/
theorem MLValue.InitAll_append_last_fields (v : MLValue) (calls : List InitCall)
    (last : InitCall) :
    (v.InitAll (calls ++ [last])).data_.get = last.pData ∧
    (v.InitAll (calls ++ [last])).type_ = last.type := by
  rw [MLValue.InitAll_append_last]
  exact ⟨rfl, rfl⟩

/-- C1. After any sequence of one or more `Init` calls on any `MLValue`, the value holds the
payload and type of the most recent call (it overwrites the earlier ones), and a typed read
succeeds exactly when the requested type is that type; `Get<T>` and `GetMutable<T>` then return
that call's payload (reads are functions of the value and leave it as it is, so every repeated
read returns it again), and a read at any other type fails the `LOTUS_ENFORCE` check. -/
theorem MLValue_typed_read_after_Init (v0 : MLValue) (calls : List InitCall) (last : InitCall)
    (T : TypeId) :
    ((v0.InitAll (calls ++ [last])).data_.get = last.pData ∧
      (v0.InitAll (calls ++ [last])).type_ = last.type) ∧
    ((∃ p, (v0.InitAll (calls ++ [last])).Get T = Except.ok p) ↔
        DataTypeImpl.GetType T = last.type) ∧
    ((∃ p, (v0.InitAll (calls ++ [last])).GetMutable T = Except.ok p) ↔
        DataTypeImpl.GetType T = last.type) ∧
    (DataTypeImpl.GetType T = last.type →
        (v0.InitAll (calls ++ [last])).Get T = Except.ok last.pData ∧
        (v0.InitAll (calls ++ [last])).GetMutable T = Except.ok last.pData) ∧
    (DataTypeImpl.GetType T ≠ last.type →
        (v0.InitAll (calls ++ [last])).Get T = Except.error (Failure.LotusException
          (Enforced.typeMatches (DataTypeImpl.GetType T) last.type)) ∧
        (v0.InitAll (calls ++ [last])).GetMutable T = Except.error (Failure.LotusException
          (Enforced.typeMatches (DataTypeImpl.GetType T) last.type))) := by
  refine ⟨MLValue.InitAll_append_last_fields v0 calls last, ?_⟩
  rw [MLValue.InitAll_append_last, MLValue.GetMutable_eq_Get, MLValue.Get_Init]
  by_cases h : DataTypeImpl.GetType T = last.type
  · simp [h]
  · simp [h]

/-- C2, as stated, fails: `Init(nullptr, type, deleter)` on a fresh value leaves the type set
without data, and `Init(pData, nullptr, deleter)` leaves data set without a type. Both values are
neither empty nor fully initialized, and `IsAllocated()` is false for them although they are not
empty. -/
theorem MLValue_Init_half_set_reachable :
    (¬ ((MLValue.ctor.InitAll [InitCall.mk none (some TypeId.Tensor) 0]).isEmpty ∨
        (MLValue.ctor.InitAll [InitCall.mk none (some TypeId.Tensor) 0]).isFull)) ∧
    (¬ ((MLValue.ctor.InitAll [InitCall.mk (some 16) none 0]).isEmpty ∨
        (MLValue.ctor.InitAll [InitCall.mk (some 16) none 0]).isFull)) ∧
    (MLValue.ctor.InitAll [InitCall.mk none (some TypeId.Tensor) 0]).IsAllocated = false ∧
    (MLValue.ctor.InitAll [InitCall.mk (some 16) none 0]).IsAllocated = false := by
  decide

/-- C2, amended. When every `Init` call passes a payload and a type that are both null or both
non-null, every `MLValue` reachable from the default constructor is either empty or fully
initialized, and `IsAllocated()` is false exactly for the empty value. -/
theorem MLValue_empty_or_full_of_paired_Init (calls : List InitCall)
    (hpaired : ∀ c ∈ calls, c.pData = none ↔ c.type = none) :
    ((MLValue.ctor.InitAll calls).isEmpty ∨ (MLValue.ctor.InitAll calls).isFull) ∧
    ((MLValue.ctor.InitAll calls).IsAllocated = false ↔ (MLValue.ctor.InitAll calls).isEmpty) := by
  rcases List.eq_nil_or_concat calls with hnil | ⟨front, last, hcat⟩
  · subst hnil
    decide
  · subst hcat
    rw [List.concat_eq_append] at hpaired ⊢
    have hlast := hpaired last (by simp)
    obtain ⟨hd, ht⟩ := MLValue.InitAll_append_last_fields MLValue.ctor front last
    unfold MLValue.isEmpty MLValue.isFull MLValue.IsAllocated SharedPtr.toBool
    rw [hd, ht]
    cases hp : last.pData <;> cases hty : last.type <;> simp_all

theorem MLValue_empty_or_full_of_paired_Init_witness :
    (∀ c ∈ [InitCall.mk (some 16) (some TypeId.Tensor) 0,
            InitCall.mk (some 32) (some (TypeId.other 7)) 1],
        c.pData = none ↔ c.type = none) ∧
    (((MLValue.ctor.InitAll
        [InitCall.mk (some 16) (some TypeId.Tensor) 0,
         InitCall.mk (some 32) (some (TypeId.other 7)) 1]).isEmpty ∨
      (MLValue.ctor.InitAll
        [InitCall.mk (some 16) (some TypeId.Tensor) 0,
         InitCall.mk (some 32) (some (TypeId.other 7)) 1]).isFull) ∧
     ((MLValue.ctor.InitAll
        [InitCall.mk (some 16) (some TypeId.Tensor) 0,
         InitCall.mk (some 32) (some (TypeId.other 7)) 1]).IsAllocated = false ↔
      (MLValue.ctor.InitAll
        [InitCall.mk (some 16) (some TypeId.Tensor) 0,
         InitCall.mk (some 32) (some (TypeId.other 7)) 1]).isEmpty)) :=
  ⟨by decide,
    MLValue_empty_or_full_of_paired_Init
      [InitCall.mk (some 16) (some TypeId.Tensor) 0,
       InitCall.mk (some 32) (some (TypeId.other 7)) 1] (by decide)⟩

/-! ## Properties of `TensorShape` -/

/-- C3. `IsScalar()` holds exactly for the empty dimension sequence and for the sequence with
the single entry 1; so it holds for `{}` and `{1}` and fails for `{1,1}`. -/
theorem TensorShape_IsScalar_iff (s : TensorShape) :
    (s.IsScalar = true ↔ s.dims = [] ∨ s.dims = [1]) ∧
    (TensorShape.mk []).IsScalar = true ∧
    (TensorShape.mk [1]).IsScalar = true ∧
    (TensorShape.mk [1, 1]).IsScalar = false := by
  refine ⟨?_, by decide, by decide, by decide⟩
  obtain ⟨dims⟩ := s
  match dims with
  | [] => simp [TensorShape.IsScalar, TensorShape.size]
  | [x] => simp [TensorShape.IsScalar, TensorShape.size, TensorShape.at]
  | x :: y :: rest => simp [TensorShape.IsScalar, TensorShape.size, TensorShape.at]

theorem std_equal_iff_of_length_eq (a b : List Int) (hlen : a.length = b.length) :
    std_equal a b = true ↔ a = b := by
  induction a generalizing b with
  | nil =>
    cases b with
    | nil => simp [std_equal]
    | cons y ys => simp at hlen
  | cons x xs ih =>
    cases b with
    | nil => simp at hlen
    | cons y ys =>
      have hl : xs.length = ys.length := by simpa using hlen
      simp [std_equal, ih ys hl]

theorem vector_operator_eq_iff (a b : List Int) : vector_operator_eq a b = true ↔ a = b := by
  unfold vector_operator_eq
  constructor
  · intro h
    rw [Bool.and_eq_true] at h
    have hlen : a.length = b.length := by simpa using h.1
    exact (std_equal_iff_of_length_eq a b hlen).mp h.2
  · intro h
    subst h
    rw [Bool.and_eq_true]
    exact ⟨by simp, (std_equal_iff_of_length_eq a a rfl).mpr rfl⟩

theorem list_eq_iff_entries (a b : List Int) :
    a = b ↔ a.length = b.length ∧ ∀ i, i < a.length → a[i]? = b[i]? := by
  constructor
  · intro h
    subst h
    exact ⟨rfl, fun _ _ => rfl⟩
  · intro ⟨hlen, hent⟩
    apply List.ext_getElem?
    intro i
    by_cases hi : i < a.length
    · exact hent i hi
    · have ha : a.length ≤ i := Nat.le_of_not_lt hi
      have hb : b.length ≤ i := hlen ▸ ha
      rw [List.getElem?_eq_none ha, List.getElem?_eq_none hb]

/-- C4. `operator==` holds exactly when the two dimension sequences have the same length and
the same entry at every position (entries, negative placeholders included, are compared by
value), so replacing any one entry by a different value breaks equality; `operator!=` is the
negation of `operator==`. -/
theorem TensorShape_operator_eq_iff (a b : TensorShape) :
    (a.operator_eq b = true ↔
      a.size = b.size ∧ ∀ i, i < a.size → a.dims[i]? = b.dims[i]?) ∧
    (∀ i x, i < a.size → a.dims[i]? ≠ some x →
      a.operator_eq (TensorShape.mk (a.dims.set i x)) = false) ∧
    a.operator_ne b = !(a.operator_eq b) := by
  refine ⟨?_, ?_, rfl⟩
  · unfold TensorShape.operator_eq TensorShape.size
    rw [vector_operator_eq_iff, list_eq_iff_entries]
  · intro i x hi hne
    unfold TensorShape.size at hi
    rw [Bool.eq_false_iff]
    intro heq
    unfold TensorShape.operator_eq at heq
    rw [vector_operator_eq_iff] at heq
    have heq' : a.dims = a.dims.set i x := heq
    have hget : a.dims[i]? = (a.dims.set i x)[i]? := congrArg (fun l => l[i]?) heq'
    rw [List.getElem?_set_self hi] at hget
    exact hne hget

/-- C10. For every shape `S` of rank `r`: `Slice(0, r)` equals `S`, and
`SizeToDimension(r)`, `SizeFromDimension(0)` and `Size()` all return the same number, the product
of all entries, which is 1 for the empty shape. -/
theorem TensorShape_full_Slice_and_Size (s : TensorShape) :
    (s.Slice 0 s.NumDimensions).operator_eq s = true ∧
    s.Slice 0 s.NumDimensions = s ∧
    s.SizeToDimension s.NumDimensions = Except.ok s.Size ∧
    s.SizeFromDimension 0 = Except.ok s.Size ∧
    s.Size = s.dims.prod ∧
    (TensorShape.mk []).Size = 1 := by
  have hslice : s.Slice 0 s.NumDimensions = s := by
    obtain ⟨dims⟩ := s
    simp [TensorShape.Slice, TensorShape.NumDimensions, TensorShape.size]
  refine ⟨?_, hslice, ?_, ?_, ?_, rfl⟩
  · rw [hslice]
    unfold TensorShape.operator_eq
    exact (vector_operator_eq_iff s.dims s.dims).mpr rfl
  · simp [TensorShape.SizeToDimension, TensorShape.NumDimensions, TensorShape.Size]
  · simp [TensorShape.SizeFromDimension, TensorShape.Size]
  · simp [TensorShape.Size, TensorShape.SizeHelper, TensorShape.size, List.prod_eq_foldl]

/-! ## Properties of `OpKernelContext` and `OpKernel` -/

theorem MLValue.Get_eq (v : MLValue) (T : TypeId) :
    v.Get T =
      if DataTypeImpl.GetType T = v.type_ then Except.ok v.data_.get
      else Except.error (Failure.LotusException
        (Enforced.typeMatches (DataTypeImpl.GetType T) v.type_)) := by
  unfold MLValue.Get LOTUS_ENFORCE
  by_cases h : DataTypeImpl.GetType T = v.type_
  · simp [h]
  · simp [h]

theorem OpKernelContext.Output_primary_out_of_range {σ : Type} (ctx : OpKernelContext σ)
    (T : TypeId) (frame : σ) (index : Int) (hout : index < 0 ∨ index ≥ ctx.OutputCount) :
    ctx.Output_primary T frame index = (Except.ok none, frame) := by
  unfold OpKernelContext.Output_primary
  have hcond : (decide (index < 0) || decide (index ≥ ctx.OutputCount)) = true := by
    rcases hout with h | h
    · simp [h]
    · simp [h]
  rw [if_pos hcond]

theorem OpKernelContext.Output_primary_in_range {σ : Type} (ctx : OpKernelContext σ)
    (T : TypeId) (frame : σ) (index : Int) (h0 : 0 ≤ index) (h1 : index < ctx.OutputCount) :
    ctx.Output_primary T frame index =
      match ctx.GetOrCreateOutputMLValue frame index with
      | (status, p_ml_value, frame') =>
        match LOTUS_ENFORCE status.IsOK Enforced.statusIsOK with
        | Except.error e => (Except.error e, frame')
        | Except.ok () =>
          match p_ml_value with
          | some v => (v.GetMutable T, frame')
          | none => (Except.ok none, frame') := by
  unfold OpKernelContext.Output_primary
  have hcond : ¬ ((decide (index < 0) || decide (index ≥ ctx.OutputCount)) = true) := by
    simp only [Bool.or_eq_true, decide_eq_true_eq, not_or, not_lt, ge_iff_le, not_le]
    exact ⟨h0, h1⟩
  rw [if_neg hcond]

/-- C5. For every index, in range or not, `Output<Tensor>(index)` throws the `LOTUS_ENFORCE`
failure and leaves the frame as it was; it returns no pointer, neither a tensor nor null. -/
theorem OpKernelContext_Output_Tensor_rejected {σ : Type} (ctx : OpKernelContext σ) (frame : σ)
    (index : Int) :
    ctx.Output TypeId.Tensor frame index =
      (Except.error (Failure.LotusException Enforced.shapelessTensorOutput), frame) ∧
    ∀ p : Ptr, (ctx.Output TypeId.Tensor frame index).1 ≠ Except.ok p := by
  have h : ctx.Output TypeId.Tensor frame index =
      (Except.error (Failure.LotusException Enforced.shapelessTensorOutput), frame) := rfl
  refine ⟨h, ?_⟩
  intro p hp
  rw [h] at hp
  cases hp

/-- C6. For a non-tensor type `T`: when `index < 0` or `index >= OutputCount()`,
`Output<T>(index)` returns null and the frame is untouched (whatever a get-or-create call would
have done to it); for an in-range index it makes the get-or-create call and, the call having
succeeded, returns null when no value is supplied and otherwise the value read as `T` by
`GetMutable<T>`: its payload when the stored type is `T`. A get-or-create call that reports a
failed status is turned into a fatal failure. -/
theorem OpKernelContext_Output_non_tensor {σ : Type} (ctx : OpKernelContext σ) (T : TypeId)
    (hT : T ≠ TypeId.Tensor) (frame : σ) (index : Int) :
    ((index < 0 ∨ index ≥ ctx.OutputCount) →
      ctx.Output T frame index = (Except.ok none, frame)) ∧
    ((0 ≤ index ∧ index < ctx.OutputCount) →
      ∀ status p_ml_value frame',
        ctx.GetOrCreateOutputMLValue frame index = (status, p_ml_value, frame') →
        (status.IsOK = true → p_ml_value = none →
          ctx.Output T frame index = (Except.ok none, frame')) ∧
        (status.IsOK = true → ∀ v, p_ml_value = some v →
          ctx.Output T frame index = (v.GetMutable T, frame') ∧
          (v.type_ = DataTypeImpl.GetType T →
            ctx.Output T frame index = (Except.ok v.data_.get, frame'))) ∧
        (status.IsOK = false →
          ctx.Output T frame index =
            (Except.error (Failure.LotusException Enforced.statusIsOK), frame'))) := by
  have hprim : ctx.Output T frame index = ctx.Output_primary T frame index := by
    unfold OpKernelContext.Output
    rw [if_neg hT]
  rw [hprim]
  constructor
  · exact OpKernelContext.Output_primary_out_of_range ctx T frame index
  · intro ⟨h0, h1⟩ status p_ml_value frame' hcall
    rw [OpKernelContext.Output_primary_in_range ctx T frame index h0 h1, hcall]
    refine ⟨?_, ?_, ?_⟩
    · intro hok hnone
      subst hnone
      simp [LOTUS_ENFORCE, hok]
    · intro hok v hsome
      subst hsome
      refine ⟨by simp [LOTUS_ENFORCE, hok], ?_⟩
      intro hty
      simp [LOTUS_ENFORCE, hok, MLValue.GetMutable_eq_Get, MLValue.Get_eq, hty]
    · intro hbad
      simp [LOTUS_ENFORCE, hbad]

theorem exampleContext_OutputCount : exampleContext.OutputCount = 2 := by
  simp [OpKernelContext.OutputCount, static_cast_int, exampleContext, Int.bmod]

theorem OpKernelContext_Output_non_tensor_witness :
    TypeId.other 1 ≠ TypeId.Tensor ∧
    ((5 : Int) < 0 ∨ (5 : Int) ≥ exampleContext.OutputCount) ∧
    exampleContext.Output (TypeId.other 1) 0 5 = (Except.ok none, 0) :=
  have hout : (5 : Int) < 0 ∨ (5 : Int) ≥ exampleContext.OutputCount :=
    Or.inr (by rw [exampleContext_OutputCount]; decide)
  ⟨by decide, hout,
    (OpKernelContext_Output_non_tensor exampleContext (TypeId.other 1) (by decide) 0 5).1 hout⟩

/-- C7, as stated, fails: in a context with two outputs, `Output<T>` for a non-tensor `T` at the
out-of-range indices 5 and -1 returns null, with the frame untouched, and throws nothing. -/
theorem OpKernelContext_Output_out_of_range_not_fatal :
    exampleContext.OutputCount = 2 ∧
    exampleContext.Output (TypeId.other 1) 0 5 = (Except.ok none, 0) ∧
    exampleContext.Output (TypeId.other 1) 0 (-1) = (Except.ok none, 0) ∧
    ¬ (∃ e, (exampleContext.Output (TypeId.other 1) 0 5).1 = Except.error e) ∧
    ¬ (∃ e, (exampleContext.Output (TypeId.other 1) 0 (-1)).1 = Except.error e) := by
  have h5 : exampleContext.Output (TypeId.other 1) 0 5 = (Except.ok none, 0) := by
    have hT : ¬ (TypeId.other 1 = TypeId.Tensor) := by decide
    unfold OpKernelContext.Output
    rw [if_neg hT]
    exact OpKernelContext.Output_primary_out_of_range exampleContext (TypeId.other 1) 0 5
      (Or.inr (by rw [exampleContext_OutputCount]; decide))
  have hneg : exampleContext.Output (TypeId.other 1) 0 (-1) = (Except.ok none, 0) := by
    have hT : ¬ (TypeId.other 1 = TypeId.Tensor) := by decide
    unfold OpKernelContext.Output
    rw [if_neg hT]
    exact OpKernelContext.Output_primary_out_of_range exampleContext (TypeId.other 1) 0 (-1)
      (Or.inl (by decide))
  refine ⟨exampleContext_OutputCount, h5, hneg, ?_, ?_⟩
  · rintro ⟨e, he⟩
    rw [h5] at he
    cases he
  · rintro ⟨e, he⟩
    rw [hneg] at he
    cases he

/-- C7, amended. For every output index with `index < 0` or `index >= OutputCount()`,
`Output<T>(index)` for a non-tensor `T` returns null, without a fatal failure and without
touching the frame; only the `Tensor` specialisation fails fatally there (as it does at every
index). -/
theorem OpKernelContext_Output_out_of_range {σ : Type} (ctx : OpKernelContext σ) (T : TypeId)
    (frame : σ) (index : Int) (hout : index < 0 ∨ index ≥ ctx.OutputCount) :
    (T ≠ TypeId.Tensor → ctx.Output T frame index = (Except.ok none, frame)) ∧
    (T = TypeId.Tensor → ctx.Output T frame index =
      (Except.error (Failure.LotusException Enforced.shapelessTensorOutput), frame)) := by
  constructor
  · intro hT
    unfold OpKernelContext.Output
    rw [if_neg hT]
    exact OpKernelContext.Output_primary_out_of_range ctx T frame index hout
  · intro hT
    subst hT
    rfl

theorem OpKernelContext_Output_out_of_range_witness :
    ((-3 : Int) < 0 ∨ (-3 : Int) ≥ exampleContext.OutputCount) ∧
    exampleContext.Output (TypeId.other 2) 7 (-3) = (Except.ok none, 7) :=
  ⟨Or.inl (by decide),
    (OpKernelContext_Output_out_of_range exampleContext (TypeId.other 2) 7 (-3)
      (Or.inl (by decide))).1 (by decide)⟩

/-- C9. For a kernel that does not override `ComputeAsync`, every call of `ComputeAsync`,
whatever the context and the done-callback, throws the not-implemented failure: no status is
returned, and the state is the one before the call, so the done-callback has not run. -/
theorem OpKernel_ComputeAsync_not_overridden {σ : Type} (k : OpKernel σ)
    (hbase : k.ComputeAsync_override = none) (context : OpKernelContext σ)
    (done : DoneCallback σ) (state : σ) :
    k.ComputeAsync context done state =
      (Except.error Failure.NotImplementedException, state) ∧
    ∀ status : Status, (k.ComputeAsync context done state).1 ≠ Except.ok status := by
  have h : k.ComputeAsync context done state =
      (Except.error Failure.NotImplementedException, state) := by
    unfold OpKernel.ComputeAsync
    rw [hbase]
    rfl
  refine ⟨h, ?_⟩
  intro status hs
  rw [h] at hs
  cases hs

theorem OpKernel_ComputeAsync_not_overridden_witness :
    exampleKernel.ComputeAsync_override = none ∧
    exampleKernel.ComputeAsync exampleContext (fun calls => calls + 1) 0 =
      (Except.error Failure.NotImplementedException, 0) :=
  ⟨rfl, (OpKernel_ComputeAsync_not_overridden exampleKernel rfl exampleContext
    (fun calls => calls + 1) 0).1⟩

/-! ## Properties of `ImageScaler::ComputeInternal` -/

/-- For an `int64_t` value and a vector length (below `2 ^ 63`), comparing the length with the
value cast to `size_t` is comparing the two numbers. -/
theorem static_cast_size_t_eq_iff (len : Nat) (c : Int) (hlen : len < 2 ^ 63)
    (hlo : -(2 : Int) ^ 63 ≤ c) (hhi : c < 2 ^ 63) :
    len = static_cast_size_t c ↔ (len : Int) = c := by
  unfold static_cast_size_t
  omega

/-- C12, as stated, fails: input 0 is a tensor of shape `{1, 3, 2, 2}` and the kernel holds
three bias values, so neither rejection applies, yet `ComputeInternal` does not return OK. It
requests output 0 with the shape of the input, the request throws, and the exception leaves
`ComputeInternal` in place of a status. -/
theorem ImageScaler_ComputeInternal_not_always_OK :
    exampleFailingScalerEnv.context.Input TypeId.Tensor [] 0 = Except.ok (some 16) ∧
    exampleFailingScalerEnv.tensorAt [] 16 =
      some { shape := TensorShape.mk [1, 3, 2, 2], data := List.replicate 12 0 } ∧
    exampleScaler.bias_.length = 3 ∧
    exampleScaler.ComputeInternal exampleFailingScalerEnv [] =
      some (Except.error (Failure.LotusException Enforced.statusIsOK),
        [((0 : Int), TensorShape.mk [1, 3, 2, 2])]) ∧
    ¬ (∃ frame', exampleScaler.ComputeInternal exampleFailingScalerEnv [] =
      some (Except.ok Status.OK, frame')) := by
  have hrun : exampleScaler.ComputeInternal exampleFailingScalerEnv [] =
      some (Except.error (Failure.LotusException Enforced.statusIsOK),
        [((0 : Int), TensorShape.mk [1, 3, 2, 2])]) := by
    rfl
  refine ⟨rfl, rfl, rfl, hrun, ?_⟩
  rintro ⟨frame', h⟩
  rw [hrun] at h
  cases h

/-- C12, amended. Let input 0 be a tensor `X` (its channel extent an `int64_t`) and let the
kernel hold any `scale_` and `bias_`. If the rank of `X` is not 4, or `bias_` is non-empty and
its length differs from `dims[1]`, `ComputeInternal` returns the status `INVALID_ARGUMENT` (a
returned status, not an exception) and the frame is the one before the call: no output was
requested. In every other case it requests output 0 with the shape of `X`; when the request is
answered with a tensor it returns OK, when the request throws the exception is passed on in
place of a status, and when the request is answered with null the null pointer is dereferenced
unchecked, so that no result is defined. -/
theorem ImageScaler_ComputeInternal_status {σ F : Type} (self : ImageScaler F)
    (env : CudaKernelEnv σ F) (frame : σ) (x : Addr) (X : Tensor F)
    (hinput : env.context.Input TypeId.Tensor frame 0 = Except.ok (some x))
    (hX : env.tensorAt frame x = some X)
    (hlo : -(2 : Int) ^ 63 ≤ X.shape.dims.getD 1 0) (hhi : X.shape.dims.getD 1 0 < 2 ^ 63)
    (hbias : self.bias_.length < 2 ^ 63) :
    ((X.shape.dims.length ≠ 4 ∨
        (self.bias_ ≠ [] ∧ (self.bias_.length : Int) ≠ X.shape.dims.getD 1 0)) →
      self.ComputeInternal env frame =
        some (Except.ok (Status.error StatusCode.INVALID_ARGUMENT), frame) ∧
      (Status.error StatusCode.INVALID_ARGUMENT).IsOK = false) ∧
    (¬ (X.shape.dims.length ≠ 4 ∨
        (self.bias_ ≠ [] ∧ (self.bias_.length : Int) ≠ X.shape.dims.getD 1 0)) →
      (∀ y frame', env.Output_shaped frame 0 X.shape = (Except.ok (some y), frame') →
        self.ComputeInternal env frame =
          some (Except.ok Status.OK,
            env.ImageScalerImpl X.data self.scale_ self.b_data_ X.shape.dims y X.shape.Size
              frame')) ∧
      (∀ e frame', env.Output_shaped frame 0 X.shape = (Except.error e, frame') →
        self.ComputeInternal env frame = some (Except.error e, frame')) ∧
      (∀ frame', env.Output_shaped frame 0 X.shape = (Except.ok none, frame') →
        self.ComputeInternal env frame = none)) := by
  have hcast := static_cast_size_t_eq_iff self.bias_.length (X.shape.dims.getD 1 0) hbias hlo hhi
  constructor
  · intro hbad
    refine ⟨?_, rfl⟩
    unfold ImageScaler.ComputeInternal
    simp only [hinput, hX, Tensor.Shape, TensorShape.GetDims, LOTUS_MAKE_STATUS]
    by_cases hrank : X.shape.dims.length = 4
    · have hb : self.bias_ ≠ [] ∧ (self.bias_.length : Int) ≠ X.shape.dims.getD 1 0 := by
        rcases hbad with h | h
        · exact absurd hrank h
        · exact h
      have hne : self.bias_.length ≠ static_cast_size_t (X.shape.dims.getD 1 0) :=
        fun h => hb.2 (hcast.mp h)
      have h4 : ¬ (X.shape.dims.length ≠ 4) := fun h => h hrank
      have hcond : (!self.bias_.isEmpty &&
          self.bias_.length != static_cast_size_t (X.shape.dims.getD 1 0)) = true := by
        rw [Bool.and_eq_true]
        exact ⟨by simp [hb.1], by simpa using hne⟩
      rw [if_neg h4, if_pos hcond]
    · rw [if_pos hrank]
  · intro hgood
    have hrank : X.shape.dims.length = 4 := by
      by_contra h
      exact hgood (Or.inl h)
    have h4 : ¬ (X.shape.dims.length ≠ 4) := fun h => h hrank
    have hpass : self.bias_ = [] ∨
        self.bias_.length = static_cast_size_t (X.shape.dims.getD 1 0) := by
      by_cases hb : self.bias_ = []
      · exact Or.inl hb
      · right
        apply hcast.mpr
        by_contra h
        exact hgood (Or.inr ⟨hb, h⟩)
    have hcond : ¬ ((!self.bias_.isEmpty &&
        self.bias_.length != static_cast_size_t (X.shape.dims.getD 1 0)) = true) := by
      rcases hpass with h | h
      · simp [h]
      · rw [← h]
        simp
    refine ⟨?_, ?_, ?_⟩
    · intro y frame' hreq
      unfold ImageScaler.ComputeInternal
      simp only [hinput, hX, Tensor.Shape, TensorShape.GetDims]
      rw [if_neg h4, if_neg hcond, hreq]
    · intro e frame' hreq
      unfold ImageScaler.ComputeInternal
      simp only [hinput, hX, Tensor.Shape, TensorShape.GetDims]
      rw [if_neg h4, if_neg hcond, hreq]
    · intro frame' hreq
      unfold ImageScaler.ComputeInternal
      simp only [hinput, hX, Tensor.Shape, TensorShape.GetDims]
      rw [if_neg h4, if_neg hcond, hreq]

theorem ImageScaler_ComputeInternal_status_witness :
    exampleScalerEnv.context.Input TypeId.Tensor [] 0 = Except.ok (some 16) ∧
    exampleScalerEnv.tensorAt [] 16 =
      some { shape := TensorShape.mk [1, 3, 2, 2], data := List.replicate 12 0 } ∧
    exampleScaler.ComputeInternal exampleScalerEnv [] =
      some (Except.ok Status.OK, [((0 : Int), TensorShape.mk [1, 3, 2, 2])]) :=
  ⟨rfl, rfl,
    ((ImageScaler_ComputeInternal_status exampleScaler exampleScalerEnv [] 16
        { shape := TensorShape.mk [1, 3, 2, 2], data := List.replicate 12 0 } rfl rfl
        (by norm_num) (by norm_num) (by norm_num [exampleScaler])).2
      (by simp [exampleScaler])).1 64 [((0 : Int), TensorShape.mk [1, 3, 2, 2])] rfl⟩

/-! ## Properties of `TopK` -/

instance TopK.before_isTotal {α : Type} [LinearOrder α] :
    IsTotal (Nat × α) TopK.before where
  total a b := by
    unfold TopK.before
    rcases lt_trichotomy a.2 b.2 with h | h | h
    · exact Or.inr (Or.inl h)
    · rcases Nat.le_total a.1 b.1 with hle | hle
      · exact Or.inl (Or.inr ⟨h, hle⟩)
      · exact Or.inr (Or.inr ⟨h.symm, hle⟩)
    · exact Or.inl (Or.inl h)

instance TopK.before_isTrans {α : Type} [LinearOrder α] :
    IsTrans (Nat × α) TopK.before where
  trans a b c hab hbc := by
    unfold TopK.before at *
    rcases hab with h1 | ⟨h1, h1'⟩
    · rcases hbc with h2 | ⟨h2, _⟩
      · exact Or.inl (lt_trans h2 h1)
      · exact Or.inl (h2 ▸ h1)
    · rcases hbc with h2 | ⟨h2, h2'⟩
      · exact Or.inl (h1 ▸ h2)
      · exact Or.inr ⟨h1.trans h2, Nat.le_trans h1' h2'⟩

/-- The sorted entries of a row, pairwise: larger value first, or equal value and strictly lower
position first. -/
theorem TopK.sorted_entries_strict {α : Type} [LinearOrder α] (row : List α) :
    (row.enum.insertionSort TopK.before).Pairwise
      (fun a b => b.2 < a.2 ∨ (a.2 = b.2 ∧ a.1 < b.1)) := by
  have hperm : (row.enum.insertionSort TopK.before).Perm row.enum :=
    List.perm_insertionSort TopK.before row.enum
  have hsorted : (row.enum.insertionSort TopK.before).Pairwise TopK.before :=
    List.sorted_insertionSort TopK.before row.enum
  have hnodup : ((row.enum.insertionSort TopK.before).map Prod.fst).Nodup := by
    rw [(hperm.map Prod.fst).nodup_iff, List.enum_map_fst]
    exact List.nodup_range _
  have hdistinct : (row.enum.insertionSort TopK.before).Pairwise
      (fun a b => a.1 ≠ b.1) := List.pairwise_map.mp hnodup
  refine (hsorted.and hdistinct).imp ?_
  intro a b hab
  rcases hab.1 with h | ⟨h, hle⟩
  · exact Or.inl h
  · exact Or.inr ⟨h, Nat.lt_of_le_of_ne hle hab.2⟩

/-- The entries selected from a row satisfy what is asked of an output row. -/
theorem TopK.selectRow_isTopK {α : Type} [LinearOrder α] (k : Nat) (row : List α)
    (hk : k ≤ row.length) :
    TopK.IsTopKOfRow k row ((TopK.selectRow k row).map Prod.snd)
      ((TopK.selectRow k row).map (fun e => (e.1 : Int))) := by
  have hperm : (row.enum.insertionSort TopK.before).Perm row.enum :=
    List.perm_insertionSort TopK.before row.enum
  have hstrict := TopK.sorted_entries_strict row
  have hlen : (row.enum.insertionSort TopK.before).length = row.length := by
    rw [hperm.length_eq, List.enum_length]
  have hsub : (TopK.selectRow k row).Sublist (row.enum.insertionSort TopK.before) :=
    List.take_sublist k _
  refine ⟨TopK.selectRow k row, rfl, rfl, ?_, ?_, ?_, ?_, ?_⟩
  · unfold TopK.selectRow
    rw [List.length_take, hlen]
    exact Nat.min_eq_left hk
  · intro e he
    have hmem : e ∈ row.enum := hperm.mem_iff.mp (hsub.subset he)
    exact List.mem_enum_iff_getElem?.mp hmem
  · have hnodup : ((row.enum.insertionSort TopK.before).map Prod.fst).Nodup := by
      rw [(hperm.map Prod.fst).nodup_iff, List.enum_map_fst]
      exact List.nodup_range _
    exact hnodup.sublist (hsub.map Prod.fst)
  · exact hstrict.sublist hsub
  · intro p v hpv hout e he
    have hmem : (p, v) ∈ row.enum.insertionSort TopK.before :=
      hperm.mem_iff.mpr (List.mk_mem_enum_iff_getElem?.mpr hpv)
    rw [← List.take_append_drop k (row.enum.insertionSort TopK.before)] at hmem hstrict
    have hdrop : (p, v) ∈ (row.enum.insertionSort TopK.before).drop k := by
      rcases List.mem_append.mp hmem with h | h
      · exact absurd (List.mem_map_of_mem Prod.fst h) hout
      · exact h
    have hrel := (List.pairwise_append.mp hstrict).2.2 e he (p, v) hdrop
    rcases hrel with h | ⟨h, hlt⟩
    · exact Or.inl h
    · exact Or.inr ⟨h.symm, hlt⟩

/-- In the concatenation of rows of one length, the rows sit at the multiples of that
length. -/
theorem flatten_uniform_row {β : Type} (k : Nat) (rows : List (List β))
    (hrows : ∀ r ∈ rows, r.length = k) (i : Nat) (r : List β) (hi : rows[i]? = some r) :
    (rows.flatten.drop (i * k)).take k = r := by
  induction rows generalizing i with
  | nil => simp at hi
  | cons r0 rest ih =>
    have hr0 : r0.length = k := hrows r0 (List.mem_cons_self _ _)
    cases i with
    | zero =>
      have hr : r0 = r := by simpa using hi
      subst hr
      rw [List.flatten_cons, Nat.zero_mul, List.drop_zero]
      exact List.take_left' hr0
    | succ j =>
      have hj : rest[j]? = some r := by simpa using hi
      have hsplit : (j + 1) * k = r0.length + j * k := by rw [hr0, Nat.succ_mul, Nat.add_comm]
      rw [List.flatten_cons, hsplit, List.drop_append]
      exact ih (fun r' hr' => hrows r' (List.mem_cons_of_mem _ hr')) j hj

/-- The concatenation of `n` rows of length `k` has `n * k` elements. -/
theorem flatten_uniform_length {β : Type} (k : Nat) (rows : List (List β))
    (hrows : ∀ r ∈ rows, r.length = k) : rows.flatten.length = rows.length * k := by
  induction rows with
  | nil => simp
  | cons r0 rest ih =>
    rw [List.flatten_cons, List.length_append, hrows r0 (List.mem_cons_self _ _),
      ih (fun r' hr' => hrows r' (List.mem_cons_of_mem _ hr')), List.length_cons, Nat.succ_mul,
      Nat.add_comm]

/-- A row of a well-formed tensor of shape `n × m` has `m` elements. -/
theorem Tensor.row_length {α : Type} (X : Tensor α) (n m i : Nat)
    (hdata : X.data.length = n * m) (hi : i < n) : (X.row m i).length = m := by
  unfold Tensor.row
  rw [List.length_take, List.length_drop, hdata, ← Nat.sub_mul]
  apply Nat.min_eq_left
  exact Nat.le_mul_of_pos_left m (Nat.sub_pos_of_lt hi)

theorem TopK.selectRow_length {α : Type} [LinearOrder α] (k : Nat) (row : List α)
    (hk : k ≤ row.length) : (TopK.selectRow k row).length = k := by
  unfold TopK.selectRow
  rw [List.length_take, (List.perm_insertionSort TopK.before row.enum).length_eq,
    List.enum_length]
  exact Nat.min_eq_left hk

/-- The result of `TopK` on a rank-2 input with `1 <= k <= m`. -/
theorem TopK.Compute_rank2 {α : Type} [LinearOrder α] (n m k : Nat) (X : Tensor α)
    (hshape : X.shape.dims = [(n : Int), (m : Int)]) (hk1 : 1 ≤ k) (hkm : k ≤ m) :
    TopK.Compute (k : Int) X = Except.ok
      ({ shape := TensorShape.mk [(n : Int), (k : Int)],
         data := (((List.range n).map (fun i => TopK.selectRow k (X.row m i))).map
            (fun sel => sel.map Prod.snd)).flatten },
       { shape := TensorShape.mk [(n : Int), (k : Int)],
         data := (((List.range n).map (fun i => TopK.selectRow k (X.row m i))).map
            (fun sel => sel.map (fun e => (e.1 : Int)))).flatten }) := by
  have h1 : ¬ ((k : Int) < 1) := by omega
  have h2 : ¬ ((m : Int) < (k : Int)) := by omega
  unfold TopK.Compute
  rw [hshape]
  simp only [if_neg h1, if_neg h2, Int.toNat_ofNat]

/-- C11. For every rank-2 input of shape `{n, m}` (with its `n * m` elements) and every `k`
with `1 <= k <= m`, `TopK` over the last axis succeeds with a values tensor and an indices tensor
both of shape `{n, k}`, holding `n * k` elements each; row by row, the values are the `k`
largest entries of the input row in descending order, each index is the position of the matching
value in that input row, and equal values are ordered by lowest index first. -/
theorem TopK_rank2_last_axis {α : Type} [LinearOrder α] (n m k : Nat) (X : Tensor α)
    (hshape : X.shape.dims = [(n : Int), (m : Int)]) (hdata : X.data.length = n * m)
    (hk1 : 1 ≤ k) (hkm : k ≤ m) :
    ∃ (V : Tensor α) (I : Tensor Int),
      TopK.Compute (k : Int) X = Except.ok (V, I) ∧
      V.shape.dims = [(n : Int), (k : Int)] ∧ I.shape.dims = [(n : Int), (k : Int)] ∧
      V.data.length = n * k ∧ I.data.length = n * k ∧
      ∀ i, i < n → TopK.IsTopKOfRow k (X.row m i) (V.row k i) (I.row k i) := by
  have hsel : ∀ i, i < n → (TopK.selectRow k (X.row m i)).length = k := by
    intro i hi
    apply TopK.selectRow_length
    rw [Tensor.row_length X n m i hdata hi]
    exact hkm
  have hrowsV : ∀ r ∈ ((List.range n).map (fun i => TopK.selectRow k (X.row m i))).map
      (fun sel => sel.map Prod.snd), r.length = k := by
    intro r hr
    simp only [List.map_map, List.mem_map, List.mem_range, Function.comp] at hr
    obtain ⟨i, hi, rfl⟩ := hr
    rw [List.length_map]
    exact hsel i hi
  have hrowsI : ∀ r ∈ ((List.range n).map (fun i => TopK.selectRow k (X.row m i))).map
      (fun sel => sel.map (fun e => (e.1 : Int))), r.length = k := by
    intro r hr
    simp only [List.map_map, List.mem_map, List.mem_range, Function.comp] at hr
    obtain ⟨i, hi, rfl⟩ := hr
    rw [List.length_map]
    exact hsel i hi
  refine ⟨_, _, TopK.Compute_rank2 n m k X hshape hk1 hkm, rfl, rfl, ?_, ?_, ?_⟩
  · rw [flatten_uniform_length k _ hrowsV]
    simp
  · rw [flatten_uniform_length k _ hrowsI]
    simp
  · intro i hi
    have hV : Tensor.row
        { shape := TensorShape.mk [(n : Int), (k : Int)],
          data := (((List.range n).map (fun i => TopK.selectRow k (X.row m i))).map
            (fun sel => sel.map Prod.snd)).flatten } k i =
        (TopK.selectRow k (X.row m i)).map Prod.snd := by
      apply flatten_uniform_row k _ hrowsV
      simp [List.getElem?_map, List.getElem?_range hi]
    have hI : Tensor.row
        { shape := TensorShape.mk [(n : Int), (k : Int)],
          data := (((List.range n).map (fun i => TopK.selectRow k (X.row m i))).map
            (fun sel => sel.map (fun e => (e.1 : Int)))).flatten } k i =
        (TopK.selectRow k (X.row m i)).map (fun e => (e.1 : Int)) := by
      apply flatten_uniform_row k _ hrowsI
      simp [List.getElem?_map, List.getElem?_range hi]
    rw [hV, hI]
    apply TopK.selectRow_isTopK
    rw [Tensor.row_length X n m i hdata hi]
    exact hkm

/-- The test `Top1` of `topk_op_test.cc`. -/
theorem TopK_test_Top1 :
    TopK.observe (TopK.Compute 1 topkTestInput) =
      some ([2, 1], [0.4, 0.3], [2, 1], [3, 1]) := by
  norm_num [TopK.observe, TopK.Compute, topkTestInput, Tensor.row, TopK.selectRow, List.range,
    List.range.loop, List.enum, List.enumFrom, List.insertionSort, List.orderedInsert,
    TopK.before, Int.toNat]

/-- The test `Top2` of `topk_op_test.cc`. -/
theorem TopK_test_Top2 :
    TopK.observe (TopK.Compute 2 topkTestInput2) =
      some ([2, 2], [0.4, 0.3, 0.4, 0.3], [2, 2], [3, 1, 2, 1]) := by
  norm_num [TopK.observe, TopK.Compute, topkTestInput2, Tensor.row, TopK.selectRow, List.range,
    List.range.loop, List.enum, List.enumFrom, List.insertionSort, List.orderedInsert,
    TopK.before, Int.toNat]

/-- The test `Top3` of `topk_op_test.cc`. -/
theorem TopK_test_Top3 :
    TopK.observe (TopK.Compute 3 topkTestInput2) =
      some ([2, 3], [0.4, 0.3, 0.2, 0.4, 0.3, 0.2], [2, 3], [3, 1, 2, 2, 1, 3]) := by
  norm_num [TopK.observe, TopK.Compute, topkTestInput2, Tensor.row, TopK.selectRow, List.range,
    List.range.loop, List.enum, List.enumFrom, List.insertionSort, List.orderedInsert,
    TopK.before, Int.toNat]

/-- The test `TopAll` of `topk_op_test.cc`. -/
theorem TopK_test_TopAll :
    TopK.observe (TopK.Compute 4 topkTestInput) =
      some ([2, 4], [0.4, 0.3, 0.2, 0.1, 0.3, 0.3, 0.2, 0.1], [2, 4],
        [3, 1, 2, 0, 1, 2, 3, 0]) := by
  norm_num [TopK.observe, TopK.Compute, topkTestInput, Tensor.row, TopK.selectRow, List.range,
    List.range.loop, List.enum, List.enumFrom, List.insertionSort, List.orderedInsert,
    TopK.before, Int.toNat]

theorem TopK_rank2_last_axis_witness :
    topkTestInput.shape.dims = [((2 : Nat) : Int), ((4 : Nat) : Int)] ∧
    topkTestInput.data.length = 2 * 4 ∧
    ∃ (V : Tensor ℚ) (I : Tensor Int),
      TopK.Compute ((1 : Nat) : Int) topkTestInput = Except.ok (V, I) ∧
      V.shape.dims = [((2 : Nat) : Int), ((1 : Nat) : Int)] ∧
      I.shape.dims = [((2 : Nat) : Int), ((1 : Nat) : Int)] ∧
      V.data.length = 2 * 1 ∧ I.data.length = 2 * 1 ∧
      ∀ i, i < 2 → TopK.IsTopKOfRow 1 (topkTestInput.row 4 i) (V.row 1 i) (I.row 1 i) :=
  ⟨rfl, rfl, TopK_rank2_last_axis 2 4 1 topkTestInput rfl rfl (by decide) (by decide)⟩

end Lotus
